import Mathlib

/-!
# Verification of the ioBroker Discord adapter core

Shallow embedding of the adapter's core routines (from the compiled
`main.js` and, where the two differ, the TypeScript `main.ts`):

* the two write-suppression caches (`extendObjectAsyncCached`,
  `delObjectAsyncCached`, the guarded JSON snapshot writes),
* the reconciliation pass `updateGuilds` (upsert phase and mark-and-sweep
  phase),
* the outbound command router `onSendStateChange` (reply grammar, JSON
  send payloads, value guards) and the acknowledgement logic of
  `onStateChange`,
* the authorization merge `checkUserAuthorization`,
* the presence projection `updateUserPresence`.

JavaScript objects (ioBroker object definitions, cached JSON snapshots,
parsed message options) are modelled by the inductive `JVal`;
`util.isDeepStrictEqual` is modelled as structural equality on `JVal`.
JavaScript `Map` / discord.js `Collection` instances are modelled as
association lists whose keys are unique by construction (`alGet`, `alSet`,
`alDelete`), and JS `Set` as a duplicate-free list.
-/

namespace DiscordAdapter

mutual

/-- JSON-like values as handled by the adapter.  The constructor `null` also
stands for JavaScript `undefined` where a field value is recorded
explicitly.  Arrays and objects use the mutual list types `JArr` / `JObj`
so that equality is decidable. -/
inductive JVal where
  | null
  | bool (b : Bool)
  | num (n : Int)
  | str (s : String)
  | arr (xs : JArr)
  | obj (fields : JObj)
deriving DecidableEq

/-- List of JSON values (a JavaScript array). -/
inductive JArr where
  | nil
  | cons (hd : JVal) (tl : JArr)
deriving DecidableEq

/-- List of key/value fields (a JavaScript object, in insertion order). -/
inductive JObj where
  | nil
  | cons (key : String) (val : JVal) (tl : JObj)
deriving DecidableEq

end

/-- Builds a `JArr` from a Lean list literal. -/
def jarrOf : List JVal → JArr
  | [] => .nil
  | x :: xs => .cons x (jarrOf xs)

/-- Builds a `JObj` from a Lean list literal of fields. -/
def jobjOf : List (String × JVal) → JObj
  | [] => .nil
  | (k, v) :: fs => .cons k v (jobjOf fs)

/-- JavaScript object literal. -/
def JVal.objL (fields : List (String × JVal)) : JVal := .obj (jobjOf fields)

/-- JavaScript array literal. -/
def JVal.arrL (xs : List JVal) : JVal := .arr (jarrOf xs)

/-- Property read on a `JObj`: first field with the given key, if any. -/
def JObj.get? : JObj → String → Option JVal
  | .nil, _ => none
  | .cons k v tl, key => if k = key then some v else JObj.get? tl key

/-- Property assignment on a `JObj`: replace the field in place, or append
it (JavaScript keeps the insertion order of object keys). -/
def JObj.set : JObj → String → JVal → JObj
  | .nil, key, v => .cons key v .nil
  | .cons k v0 tl, key, v =>
      if k = key then .cons key v tl else .cons k v0 (JObj.set tl key v)

/-- Property read `x.field` on an arbitrary value: `none` models the
JavaScript `undefined` obtained when `x` is not an object. -/
def JVal.getField (v : JVal) (key : String) : Option JVal :=
  match v with
  | .obj fields => fields.get? key
  | _ => none

/-- Property assignment `x.field = v` on an arbitrary value (no effect when
`x` is not an object; the adapter only does this on objects). -/
def JVal.setField (x : JVal) (key : String) (v : JVal) : JVal :=
  match x with
  | .obj fields => .obj (fields.set key v)
  | other => other

/-- JavaScript truthiness of a value. -/
def JVal.truthy : JVal → Bool
  | .null => false
  | .bool b => b
  | .num n => !(n = 0)
  | .str s => !s.isEmpty
  | .arr _ => true
  | .obj _ => true

/-- JavaScript truthiness of a possibly-`undefined` value. -/
def optTruthy (o : Option JVal) : Bool :=
  (o.map JVal.truthy).getD false

/-- `Array.isArray`. -/
def JVal.isArray : JVal → Bool
  | .arr _ => true
  | _ => false

/-- `Array.isArray` on a possibly-`undefined` value. -/
def optIsArray (o : Option JVal) : Bool :=
  (o.map JVal.isArray).getD false

/-- JavaScript `String.prototype.startsWith`, computed on the character
list (equivalent to `String.startsWith`, but kernel-reducible). -/
def strStartsWith (s p : String) : Bool :=
  p.toList.isPrefixOf s.toList

/-- JavaScript `String.prototype.endsWith`, computed on the character
list. -/
def strEndsWith (s p : String) : Bool :=
  p.toList.isSuffixOf s.toList

/-- `Map.get` / `Collection.get`: value of the first entry for key `k`. -/
def alGet (m : List (String × α)) (k : String) : Option α :=
  match m with
  | [] => none
  | (k2, v) :: rest => if k2 = k then some v else alGet rest k

/-- `Map.set` / `Collection.set`: replace the entry in place, or append. -/
def alSet (m : List (String × α)) (k : String) (v : α) : List (String × α) :=
  match m with
  | [] => [(k, v)]
  | (k2, v2) :: rest => if k2 = k then (k, v) :: rest else (k2, v2) :: alSet rest k v

/-- Containment check `Map.has`. -/
def alHas (m : List (String × α)) (k : String) : Bool :=
  (alGet m k).isSome

/-- Removal `Map.delete` / `Collection.delete`.  A JS map holds a key at
most once, so removing every entry for the key coincides with removing the
entry. -/
def alDelete (m : List (String × α)) (k : String) : List (String × α) :=
  m.filter (fun e => e.1 ≠ k)

/-- Removal `Set.delete`.  A JS set holds an element at most once, so
removing every occurrence coincides with removing the element. -/
def setDelete (l : List String) (x : String) : List String :=
  l.filter (fun y => y ≠ x)

theorem alGet_alSet_self (m : List (String × α)) (k : String) (v : α) :
    alGet (alSet m k v) k = some v := by
  induction m with
  | nil => simp [alGet, alSet]
  | cons e rest ih =>
    by_cases h : e.1 = k
    · simp [alSet, alGet, h]
    · simp [alSet, alGet, h, ih]

theorem alGet_eq_none_iff (m : List (String × α)) (k : String) :
    alGet m k = none ↔ ∀ e ∈ m, e.1 ≠ k := by
  induction m with
  | nil => simp [alGet]
  | cons e rest ih =>
    by_cases h : e.1 = k
    · simp [alGet, h]
    · simp [alGet, h, ih]

theorem alGet_filter_eq_none (m : List (String × α)) (p : String × α → Bool)
    (k : String) (h : alGet m k = none) : alGet (m.filter p) k = none := by
  rw [alGet_eq_none_iff] at h ⊢
  intro e he
  exact h e (List.mem_filter.1 he).1

theorem alGet_alDelete_self (m : List (String × α)) (k : String) :
    alGet (alDelete m k) k = none := by
  rw [alGet_eq_none_iff]
  intro e he
  have := (List.mem_filter.1 he).2
  simpa using this

theorem alGet_alDelete_eq_none (m : List (String × α)) (k k2 : String)
    (h : alGet m k2 = none) : alGet (alDelete m k) k2 = none :=
  alGet_filter_eq_none m _ k2 h

/-! ## WriteSuppressionCache: `extendObjectAsyncCached` (claim C5) -/

/-- Result of one `extendObjectAsyncCached` call: the definition cache
afterwards, the `extendObjectAsync` store calls issued, and whether the call
returned normally (`ok = false` models the underlying store write
rejecting, in which case the exception propagates to the caller). -/
structure ExtendCachedResult where
  cache : List (String × JVal)
  storeCalls : List (String × JVal)
  ok : Bool
deriving DecidableEq

/-- Model of `DiscordAdapter.extendObjectAsyncCached`: compare `objPart`
with the cached definition for `id` (`isDeepStrictEqual`); when equal,
return `{ id }` without touching the store or the cache; otherwise delegate
to `extendObjectAsync` and update the cache afterwards.  `writeSucceeds`
models whether the underlying `extendObjectAsync` call resolves; when it
rejects, the `await` re-throws before the cache update line runs. -/
def extendObjectAsyncCached (cache : List (String × JVal)) (id : String)
    (objPart : JVal) (writeSucceeds : Bool) : ExtendCachedResult :=
  let cachedObj := alGet cache id
  if cachedObj = some objPart then
    { cache := cache, storeCalls := [], ok := true }
  else if writeSucceeds then
    { cache := alSet cache id objPart, storeCalls := [(id, objPart)], ok := true }
  else
    { cache := cache, storeCalls := [(id, objPart)], ok := false }

/-- C5: `extendObjectAsyncCached` issues the underlying `extendObjectAsync`
store write exactly when the cached entry for `id` is not deeply equal to
the candidate definition; a suppressed call leaves both the store and the
cache untouched; the cache entry is updated to the candidate only after the
store write completed successfully (a rejected write leaves the cache
unchanged). -/
theorem extendObjectAsyncCached_writes_iff_changed
    (cache : List (String × JVal)) (id : String) (objPart : JVal)
    (writeSucceeds : Bool) :
    ((extendObjectAsyncCached cache id objPart writeSucceeds).storeCalls ≠ [] ↔
      alGet cache id ≠ some objPart)
    ∧ (alGet cache id = some objPart →
        (extendObjectAsyncCached cache id objPart writeSucceeds).cache = cache
        ∧ (extendObjectAsyncCached cache id objPart writeSucceeds).storeCalls = [])
    ∧ (alGet cache id ≠ some objPart →
        (extendObjectAsyncCached cache id objPart writeSucceeds).storeCalls = [(id, objPart)])
    ∧ (alGet cache id ≠ some objPart → writeSucceeds = true →
        (extendObjectAsyncCached cache id objPart writeSucceeds).cache = alSet cache id objPart
        ∧ (extendObjectAsyncCached cache id objPart writeSucceeds).ok = true)
    ∧ (writeSucceeds = false →
        (extendObjectAsyncCached cache id objPart writeSucceeds).cache = cache) := by
  unfold extendObjectAsyncCached
  by_cases h : alGet cache id = some objPart
  · simp [h]
  · cases writeSucceeds <;> simp [h]

/-- Witness for C5 at a concrete cache and definition. -/
theorem extendObjectAsyncCached_writes_iff_changed_witness :
    (extendObjectAsyncCached [("a", JVal.str "x")] "a" (JVal.str "y") true).cache
      = alSet [("a", JVal.str "x")] "a" (JVal.str "y")
    ∧ (extendObjectAsyncCached [("a", JVal.str "x")] "a" (JVal.str "y") true).storeCalls
      = [("a", JVal.str "y")] := by
  have h := extendObjectAsyncCached_writes_iff_changed
    [("a", JVal.str "x")] "a" (JVal.str "y") true
  exact ⟨(h.2.2.2.1 (by decide) rfl).1, h.2.2.1 (by decide)⟩

/-! ## WriteSuppressionCache: `delObjectAsyncCached` (claim C9) -/

/-- Definition-cache update performed by `DiscordAdapter.delObjectAsyncCached`:
with `options.recursive` it filters the cache for all ids that start with
`id` (plain string prefix, no path-segment boundary check) and deletes each
of them; without the option it deletes only the exact entry.  The store-side
`delObjectAsync` call is issued in both cases (not modelled here). -/
def delObjectAsyncCachedCacheUpdate (cache : List (String × JVal)) (id : String)
    (recursive : Bool) : List (String × JVal) :=
  if recursive then
    cache.filter (fun e => !(strStartsWith e.1 id))
  else
    alDelete cache id

/-- C9: under a recursive cached delete, a definition-cache entry survives
exactly when its key does not start (as a plain string, with no
path-segment boundary check) with the deleted id; in particular entries
whose key merely extends the id textually are purged as well, and every
other entry is left unchanged. -/
theorem delObjectAsyncCachedCacheUpdate_mem_iff
    (cache : List (String × JVal)) (id k : String) (v : JVal) :
    (k, v) ∈ delObjectAsyncCachedCacheUpdate cache id true ↔
      (k, v) ∈ cache ∧ strStartsWith k id = false := by
  simp [delObjectAsyncCachedCacheUpdate, List.mem_filter]

/-! ## AuthorizationPolicy: `checkUserAuthorization` (claim C4) -/

/-- Capability triple carried by both kinds of configuration entries. -/
structure Grant where
  getStates : Bool
  setStates : Bool
  useText2command : Bool
deriving DecidableEq

/-- Entry of `config.authorizedUsers`. -/
structure AuthorizedUser where
  userId : String
  getStates : Bool
  setStates : Bool
  useText2command : Bool
deriving DecidableEq

/-- Entry of `config.authorizedServerRoles`; `serverAndRoleId` stores the
string `<serverId>|<roleId>`. -/
structure AuthorizedServerRole where
  serverAndRoleId : String
  getStates : Bool
  setStates : Bool
  useText2command : Bool
deriving DecidableEq

/-- Capability flags of an `authorizedUsers` entry. -/
def AuthorizedUser.grant (au : AuthorizedUser) : Grant :=
  ⟨au.getStates, au.setStates, au.useText2command⟩

/-- Capability flags of an `authorizedServerRoles` entry. -/
def AuthorizedServerRole.grant (ar : AuthorizedServerRole) : Grant :=
  ⟨ar.getStates, ar.setStates, ar.useText2command⟩

/-- Adapter configuration relevant to authorization. -/
structure AuthConfig where
  enableAuthorization : Bool
  authorizedUsers : List AuthorizedUser
  authorizedServerRoles : List AuthorizedServerRole

/-- Acting principal: plain `User` (`member = none`), or `GuildMember`
carrying its guild id and the ids of its roles (`user.roles.cache`). -/
structure Principal where
  id : String
  member : Option (String × List String)

/-- Optional `required` argument of `checkUserAuthorization`; a field is
`true` when the caller requests that capability. -/
structure Required where
  getStates : Bool
  setStates : Bool
  useText2command : Bool
deriving DecidableEq

/-- Per-field OR of two grants, as built inline by the role-merge loop. -/
def grantOr (a b : Grant) : Grant :=
  ⟨a.getStates || b.getStates, a.setStates || b.setStates,
   a.useText2command || b.useText2command⟩

/-- One iteration of the `for (const [, role] of user.roles.cache)` loop of
`checkUserAuthorization`: find the first configured role grant for
`<guildId>|<roleId>`; when found, adopt it (if no grant was working yet) or
OR-merge it into the working grant. -/
def roleMergeStep (cfg : AuthConfig) (guildId : String) (g : Option Grant)
    (roleId : String) : Option Grant :=
  match cfg.authorizedServerRoles.find?
      (fun ar => ar.serverAndRoleId == guildId ++ "|" ++ roleId) with
  | some roleGiven =>
    match g with
    | none => some roleGiven.grant
    | some gv => some (grantOr gv roleGiven.grant)
  | none => g

/-- User-level grant: first `authorizedUsers` entry for the principal. -/
def userGrantOf (cfg : AuthConfig) (user : Principal) : Option Grant :=
  (cfg.authorizedUsers.find? (fun au => au.userId == user.id)).map AuthorizedUser.grant

/-- Working grant after the role-merge loop of `checkUserAuthorization`
(the loop body only runs when role grants are configured and the principal
is a `GuildMember`). -/
def givenOf (cfg : AuthConfig) (user : Principal) : Option Grant :=
  if 0 < cfg.authorizedServerRoles.length then
    match user.member with
    | some (guildId, roles) => roles.foldl (roleMergeStep cfg guildId) (userGrantOf cfg user)
    | none => userGrantOf cfg user
  else userGrantOf cfg user

/-- Model of `DiscordAdapter.checkUserAuthorization` from main.js. -/
def checkUserAuthorization (cfg : AuthConfig) (user : Principal)
    (required : Option Required) : Bool :=
  if !cfg.enableAuthorization then true
  else
    match givenOf cfg user with
    | none => false
    | some gv =>
      match required with
      | none => true
      | some req =>
        if (req.getStates && !gv.getStates) || (req.setStates && !gv.setStates)
            || (req.useText2command && !gv.useText2command) then false
        else true

/-- The principal's `<serverId>|<roleId>` pairs, written from the claim. -/
def pairsOf (user : Principal) : List String :=
  match user.member with
  | some (guildId, roles) => roles.map (fun r => guildId ++ "|" ++ r)
  | none => []

/-- Role grants matching one of the principal's (server, role) pairs,
written from the claim. -/
def matchingOf (cfg : AuthConfig) (user : Principal) : List AuthorizedServerRole :=
  cfg.authorizedServerRoles.filter (fun ar => (pairsOf user).contains ar.serverAndRoleId)

/-- Merged grant, written from the claim: start from the user-level grant
(or an all-false default) and OR in every matching role grant. -/
def mergedOf (cfg : AuthConfig) (user : Principal) : Grant :=
  (matchingOf cfg user).foldl (fun gv ar => grantOr gv ar.grant)
    ((userGrantOf cfg user).getD ⟨false, false, false⟩)

/-- Authorization decision written from the claim's words: `true` when
authorization is globally disabled; `false` when neither a user-level grant
nor any matching role grant exists; `true` when a grant exists and no
capability was requested; otherwise `true` exactly when every requested
capability field is `true` in the merged grant. -/
def checkUserAuthorizationSpec (cfg : AuthConfig) (user : Principal)
    (required : Option Required) : Bool :=
  if !cfg.enableAuthorization then true
  else if (userGrantOf cfg user).isNone && (matchingOf cfg user).isEmpty then false
  else
    match required with
    | none => true
    | some req =>
      (!req.getStates || (mergedOf cfg user).getStates)
        && (!req.setStates || (mergedOf cfg user).setStates)
        && (!req.useText2command || (mergedOf cfg user).useText2command)

theorem rolesFold_isSome (cfg : AuthConfig) (guildId : String)
    (roles : List String) (g0 : Option Grant) :
    (roles.foldl (roleMergeStep cfg guildId) g0).isSome
      = (g0.isSome || roles.any (fun r =>
          (cfg.authorizedServerRoles.find?
            (fun ar => ar.serverAndRoleId == guildId ++ "|" ++ r)).isSome)) := by
  induction roles generalizing g0 with
  | nil => simp
  | cons r rs ih =>
    rw [List.foldl_cons, ih]
    have hstep : (roleMergeStep cfg guildId g0 r).isSome
        = (g0.isSome || (cfg.authorizedServerRoles.find?
            (fun ar => ar.serverAndRoleId == guildId ++ "|" ++ r)).isSome) := by
      unfold roleMergeStep
      cases h : cfg.authorizedServerRoles.find?
          (fun ar => ar.serverAndRoleId == guildId ++ "|" ++ r) with
      | none => simp
      | some e => cases g0 <;> simp
    rw [hstep, List.any_cons, Bool.or_assoc]

theorem rolesFold_field (cfg : AuthConfig) (guildId : String) (f : Grant → Bool)
    (hf : ∀ a b, f (grantOr a b) = (f a || f b))
    (roles : List String) (g0 : Option Grant) :
    ((roles.foldl (roleMergeStep cfg guildId) g0).map f).getD false
      = (((g0.map f).getD false) || roles.any (fun r =>
          ((cfg.authorizedServerRoles.find?
            (fun ar => ar.serverAndRoleId == guildId ++ "|" ++ r)).map
              (fun e => f e.grant)).getD false)) := by
  induction roles generalizing g0 with
  | nil => simp
  | cons r rs ih =>
    rw [List.foldl_cons, ih]
    have hstep : ((roleMergeStep cfg guildId g0 r).map f).getD false
        = (((g0.map f).getD false) || ((cfg.authorizedServerRoles.find?
            (fun ar => ar.serverAndRoleId == guildId ++ "|" ++ r)).map
              (fun e => f e.grant)).getD false) := by
      unfold roleMergeStep
      cases h : cfg.authorizedServerRoles.find?
          (fun ar => ar.serverAndRoleId == guildId ++ "|" ++ r) with
      | none => simp
      | some e =>
        cases g0 with
        | none => simp
        | some gv => simp [hf]
    rw [hstep, List.any_cons, Bool.or_assoc]

theorem requiredCheck_taut (a b c x y z : Bool) :
    (if (a && !x) || (b && !y) || (c && !z) then false else true)
      = ((!a || x) && (!b || y) && (!c || z)) := by
  cases a <;> cases b <;> cases c <;> cases x <;> cases y <;> cases z <;> rfl

theorem authorizedServerRoles_eq_nil (cfg : AuthConfig)
    (hlen : ¬(0 < cfg.authorizedServerRoles.length)) :
    cfg.authorizedServerRoles = [] := by
  cases h : cfg.authorizedServerRoles with
  | nil => rfl
  | cons a t => rw [h] at hlen; simp at hlen

/-- First configured role grant for a `<serverId>|<roleId>` pair — the one
the `find` call of the role-merge loop selects; later duplicate entries
for the same pair are never consulted. -/
def firstRoleGrant (cfg : AuthConfig) (p : String) : Option Grant :=
  (cfg.authorizedServerRoles.find?
    (fun ar => ar.serverAndRoleId == p)).map AuthorizedServerRole.grant

/-- Existence of a user-level grant or of a first-matching role grant for
one of the principal's pairs. -/
def hasAnyGrant (cfg : AuthConfig) (user : Principal) : Bool :=
  (userGrantOf cfg user).isSome
    || (pairsOf user).any (fun p => (firstRoleGrant cfg p).isSome)

/-- One capability field of the merged grant as amended: the user-level
grant's field (or `false`) OR-combined with, for each of the principal's
(server, role) pairs, the field of the first matching role grant. -/
def mergedFirstMatchField (cfg : AuthConfig) (user : Principal)
    (f : Grant → Bool) : Bool :=
  (((userGrantOf cfg user).map f).getD false)
    || (pairsOf user).any (fun p => ((firstRoleGrant cfg p).map f).getD false)

/-- The authorization decision as amended: `true` when authorization is
globally disabled; `false` when neither a user-level grant nor a
first-matching role grant for one of the principal's pairs exists; `true`
when a grant exists and no capability was requested; otherwise `true`
exactly when every requested capability field is `true` in the merged
grant, where the merge takes only the first configured role grant per
(server, role) pair. -/
def checkUserAuthorizationAmendedSpec (cfg : AuthConfig) (user : Principal)
    (required : Option Required) : Bool :=
  if !cfg.enableAuthorization then true
  else if !(hasAnyGrant cfg user) then false
  else
    match required with
    | none => true
    | some req =>
      (!req.getStates || mergedFirstMatchField cfg user Grant.getStates)
        && (!req.setStates || mergedFirstMatchField cfg user Grant.setStates)
        && (!req.useText2command || mergedFirstMatchField cfg user Grant.useText2command)

/-- C4 counterexample: with two configured role grants for the same
`<serverId>|<roleId>` key, the code merges only the first one (`find`
returns the first entry per pair), so a capability granted only by the
second entry is denied, while the claim as stated (OR-merge every matching
role grant) requires it to be granted. -/
theorem checkUserAuthorization_duplicate_role_grants_counterexample :
    checkUserAuthorization
        ⟨true, [], [⟨"g|r", false, true, false⟩, ⟨"g|r", true, false, false⟩]⟩
        ⟨"u1", some ("g", ["r"])⟩ (some ⟨true, false, false⟩) = false
    ∧ checkUserAuthorizationSpec
        ⟨true, [], [⟨"g|r", false, true, false⟩, ⟨"g|r", true, false, false⟩]⟩
        ⟨"u1", some ("g", ["r"])⟩ (some ⟨true, false, false⟩) = true := by
  constructor <;> rfl

theorem givenOf_isSome_firstMatch (cfg : AuthConfig) (user : Principal) :
    (givenOf cfg user).isSome
      = ((userGrantOf cfg user).isSome
          || (pairsOf user).any (fun p =>
            (cfg.authorizedServerRoles.find?
              (fun ar => ar.serverAndRoleId == p)).isSome)) := by
  by_cases hlen : 0 < cfg.authorizedServerRoles.length
  · cases hm : user.member with
    | none =>
      have hgv : givenOf cfg user = userGrantOf cfg user := by
        unfold givenOf; rw [if_pos hlen, hm]
      have hp : pairsOf user = [] := by unfold pairsOf; rw [hm]
      rw [hgv, hp]
      simp
    | some pr =>
      obtain ⟨guildId, roles⟩ := pr
      have hgv : givenOf cfg user
          = roles.foldl (roleMergeStep cfg guildId) (userGrantOf cfg user) := by
        unfold givenOf; rw [if_pos hlen, hm]
      have hp : pairsOf user = roles.map (fun r => guildId ++ "|" ++ r) := by
        unfold pairsOf; rw [hm]
      rw [hgv, rolesFold_isSome, hp, List.any_map]
      rfl
  · have hz := authorizedServerRoles_eq_nil cfg hlen
    have hgv : givenOf cfg user = userGrantOf cfg user := by
      unfold givenOf; rw [if_neg hlen]
    rw [hgv, hz]
    simp

theorem givenOf_field_firstMatch (cfg : AuthConfig) (user : Principal)
    (f : Grant → Bool) (hf : ∀ a b, f (grantOr a b) = (f a || f b)) :
    ((givenOf cfg user).map f).getD false
      = (((userGrantOf cfg user).map f).getD false
          || (pairsOf user).any (fun p =>
            ((cfg.authorizedServerRoles.find?
              (fun ar => ar.serverAndRoleId == p)).map
                (fun e => f e.grant)).getD false)) := by
  by_cases hlen : 0 < cfg.authorizedServerRoles.length
  · cases hm : user.member with
    | none =>
      have hgv : givenOf cfg user = userGrantOf cfg user := by
        unfold givenOf; rw [if_pos hlen, hm]
      have hp : pairsOf user = [] := by unfold pairsOf; rw [hm]
      rw [hgv, hp]
      simp
    | some pr =>
      obtain ⟨guildId, roles⟩ := pr
      have hgv : givenOf cfg user
          = roles.foldl (roleMergeStep cfg guildId) (userGrantOf cfg user) := by
        unfold givenOf; rw [if_pos hlen, hm]
      have hp : pairsOf user = roles.map (fun r => guildId ++ "|" ++ r) := by
        unfold pairsOf; rw [hm]
      rw [hgv, rolesFold_field cfg guildId f hf, hp, List.any_map]
      rfl
  · have hz := authorizedServerRoles_eq_nil cfg hlen
    have hgv : givenOf cfg user = userGrantOf cfg user := by
      unfold givenOf; rw [if_neg hlen]
    rw [hgv, hz]
    simp

theorem givenOf_isSome_eq_hasAnyGrant (cfg : AuthConfig) (user : Principal) :
    (givenOf cfg user).isSome = hasAnyGrant cfg user := by
  rw [givenOf_isSome_firstMatch]
  unfold hasAnyGrant
  have hfun : (fun p => (firstRoleGrant cfg p).isSome)
      = (fun p => (cfg.authorizedServerRoles.find?
          (fun ar => ar.serverAndRoleId == p)).isSome) := by
    funext p
    unfold firstRoleGrant
    cases cfg.authorizedServerRoles.find? (fun ar => ar.serverAndRoleId == p) <;> rfl
  rw [hfun]

theorem givenOf_field_eq_merged (cfg : AuthConfig) (user : Principal)
    (f : Grant → Bool) (hf : ∀ a b, f (grantOr a b) = (f a || f b)) :
    ((givenOf cfg user).map f).getD false = mergedFirstMatchField cfg user f := by
  rw [givenOf_field_firstMatch cfg user f hf]
  unfold mergedFirstMatchField
  have hfun : (fun p => ((firstRoleGrant cfg p).map f).getD false)
      = (fun p => ((cfg.authorizedServerRoles.find?
          (fun ar => ar.serverAndRoleId == p)).map
            (fun e => f e.grant)).getD false) := by
    funext p
    unfold firstRoleGrant
    cases cfg.authorizedServerRoles.find? (fun ar => ar.serverAndRoleId == p) <;> rfl
  rw [hfun]

/-- C4 (amended): `checkUserAuthorization` returns `true` whenever
authorization is globally disabled; otherwise it OR-merges, per capability
field, the principal's user-level grant (or an all-false default) with,
for each of the principal's (server, role) pairs, the first configured
role grant matching that pair (later duplicate entries for the same pair
are ignored); it returns `false` when no such grant exists at all, `true`
when a grant exists and no capability was requested, and otherwise `true`
exactly when every requested capability field is `true` in the merged
grant. -/
theorem checkUserAuthorization_matches_amendedSpec (cfg : AuthConfig)
    (user : Principal) (required : Option Required) :
    checkUserAuthorization cfg user required
      = checkUserAuthorizationAmendedSpec cfg user required := by
  unfold checkUserAuthorization checkUserAuthorizationAmendedSpec
  cases hen : cfg.enableAuthorization with
  | false => simp
  | true =>
    simp only [Bool.not_true, Bool.false_eq_true, if_false]
    have hsome := givenOf_isSome_eq_hasAnyGrant cfg user
    cases hg : givenOf cfg user with
    | none =>
      rw [hg] at hsome
      simp only [Option.isSome_none] at hsome
      rw [← hsome]
      simp
    | some gv =>
      rw [hg] at hsome
      simp only [Option.isSome_some] at hsome
      rw [← hsome]
      simp only [Bool.not_true, Bool.false_eq_true, if_false]
      cases required with
      | none => rfl
      | some req =>
        have hget := givenOf_field_eq_merged cfg user Grant.getStates (by intros; rfl)
        have hset := givenOf_field_eq_merged cfg user Grant.setStates (by intros; rfl)
        have htxt := givenOf_field_eq_merged cfg user Grant.useText2command (by intros; rfl)
        rw [hg] at hget hset htxt
        simp only [Option.map_some', Option.getD_some] at hget hset htxt
        rw [← hget, ← hset, ← htxt]
        exact requiredCheck_taut req.getStates req.setStates req.useText2command
          gv.getStates gv.setStates gv.useText2command

/-! ## OutboundCommandRouter: `sendReply` grammar (claim C3) -/

/-- Splitting step of the `sendReply` / `sendReaction` branch of
`onSendStateChange`: `idx = state.val.indexOf("|")`; when `idx > 0` the
value is sliced at the pipe, otherwise (`idx` is `-1` or `0`) the message
reference is read from the target's mirrored `messageId` state (`mirrored`;
`none` models a missing state or non-truthy value) and the whole raw value
becomes the content. -/
def sendReplySplit (val : String) (mirrored : Option String) :
    Option String × String :=
  match val.toList.findIdx? (fun c => c == '|') with
  | some i =>
    if 0 < i then
      (some ((val.toList.take i).asString), (val.toList.drop (i + 1)).asString)
    else
      (mirrored, val)
  | none => (mirrored, val)

/-- Model of the `sendReply` branch of `onSendStateChange`: resolve the
message reference and content, fail when either is missing or empty
(JS falsiness of strings), otherwise issue exactly one remote send carrying
that reply reference and content (the returned pair). -/
def sendReplyDispatch (val : String) (mirrored : Option String) :
    Option (String × String) :=
  match sendReplySplit val mirrored with
  | (messageReference, content) =>
    match messageReference with
    | none => none
    | some mr => if mr.isEmpty || content.isEmpty then none else some (mr, content)

/-- The `sendReply` grammar as the claim states it: the value is split at
the first `|` wherever it occurs (so a leading `|` yields an empty left
side); only a value with no `|` at all falls back to the mirrored message
id. -/
def sendReplyClaimSpec (val : String) (mirrored : Option String) :
    Option (String × String) :=
  match val.toList.findIdx? (fun c => c == '|') with
  | some i =>
    let messageId := (val.toList.take i).asString
    let content := (val.toList.drop (i + 1)).asString
    if messageId.isEmpty || content.isEmpty then none else some (messageId, content)
  | none =>
    match mirrored with
    | none => none
    | some mr => if mr.isEmpty || val.isEmpty then none else some (mr, val)

/-- The `sendReply` grammar as amended: the value is split at the first `|`
only when that pipe is not the first character; a value starting with `|`
(or containing none) falls back to the mirrored message id with the whole
raw value as content; the dispatch fails when the resolved message id or
the content is empty. -/
def sendReplyAmendedSpec (val : String) (mirrored : Option String) :
    Option (String × String) :=
  match val.toList.findIdx? (fun c => c == '|') with
  | some i =>
    if 0 < i then
      let messageId := (val.toList.take i).asString
      let content := (val.toList.drop (i + 1)).asString
      if messageId.isEmpty || content.isEmpty then none else some (messageId, content)
    else
      match mirrored with
      | none => none
      | some mr => if mr.isEmpty || val.isEmpty then none else some (mr, val)
  | none =>
    match mirrored with
    | none => none
    | some mr => if mr.isEmpty || val.isEmpty then none else some (mr, val)

/-- C3 counterexample: for the value `"|abc"` (pipe at index 0) with
mirrored message id `"111"`, the code falls back to the mirrored id and
sends content `"|abc"`, while the claim as stated (split at the first `|`,
empty left side, hence empty message id) requires the dispatch to fail. -/
theorem sendReplyDispatch_leading_pipe_counterexample :
    sendReplyDispatch "|abc" (some "111") = some ("111", "|abc")
    ∧ sendReplyClaimSpec "|abc" (some "111") = none := by
  constructor <;> rfl

/-- C3 (amended): `sendReplyDispatch` realizes exactly the amended grammar:
split at the first `|` only when it is not the leading character, fall back
to the mirrored message id otherwise, and fail exactly when the resolved
message id or content is empty. -/
theorem sendReplyDispatch_eq_amendedSpec (val : String) (mirrored : Option String) :
    sendReplyDispatch val mirrored = sendReplyAmendedSpec val mirrored := by
  unfold sendReplyDispatch sendReplySplit sendReplyAmendedSpec
  cases hidx : val.toList.findIdx? (fun c => c == '|') with
  | none => cases mirrored <;> simp
  | some i =>
    by_cases hi : 0 < i
    · simp [hi]
    · cases mirrored <;> simp [hi]

/-! ## OutboundCommandRouter: JSON `send` payloads (claim C6) -/

/-- Model of the plain `send` branch of `onSendStateChange` (the raw value
is already known to be a non-empty string and the action is neither
`sendFile`, `sendReply` nor `sendReaction`).  `parsed` is the outcome of
the JavaScript `JSON.parse(state.val)` runtime primitive (`none` models a
parse exception); it is only consulted when the value is brace-enclosed.
The result is the message-options object handed to `target.send`, or
`none` when the dispatch fails without a remote call. -/
def sendActionDispatch (val : String) (parsed : Option JVal) : Option JVal :=
  if strStartsWith val "\x7b" && strEndsWith val "\x7d" then
    match parsed with
    | none => none
    | some mo =>
      if (!optTruthy (mo.getField "files") && !optTruthy (mo.getField "content"))
          || (optTruthy (mo.getField "files") && !optIsArray (mo.getField "files"))
          || (optTruthy (mo.getField "embeds") && !optIsArray (mo.getField "embeds")) then
        none
      else
        some mo
  else
    some (JVal.objL [("content", JVal.str val)])

/-- C6: for a brace-enclosed raw value, a parse failure, a parsed object
with neither (truthy) content nor files, a non-array files field or a
non-array embeds field all fail the dispatch with no remote send, and any
other parsed object is sent as is; a raw value not enclosed in braces is
sent as plain message content. -/
theorem sendActionDispatch_spec (val : String) (parsed : Option JVal) :
    ((strStartsWith val "\x7b" && strEndsWith val "\x7d") = true →
      (parsed = none → sendActionDispatch val parsed = none)
      ∧ (∀ mo, parsed = some mo →
          ((!optTruthy (mo.getField "files") && !optTruthy (mo.getField "content"))
              || (optTruthy (mo.getField "files") && !optIsArray (mo.getField "files"))
              || (optTruthy (mo.getField "embeds") && !optIsArray (mo.getField "embeds")))
            = true →
          sendActionDispatch val parsed = none)
      ∧ (∀ mo, parsed = some mo →
          ((!optTruthy (mo.getField "files") && !optTruthy (mo.getField "content"))
              || (optTruthy (mo.getField "files") && !optIsArray (mo.getField "files"))
              || (optTruthy (mo.getField "embeds") && !optIsArray (mo.getField "embeds")))
            = false →
          sendActionDispatch val parsed = some mo))
    ∧ ((strStartsWith val "\x7b" && strEndsWith val "\x7d") = false →
        sendActionDispatch val parsed = some (JVal.objL [("content", JVal.str val)])) := by
  constructor
  · intro hbr
    refine ⟨?_, ?_, ?_⟩
    · rintro rfl
      simp [sendActionDispatch, hbr]
    · rintro mo rfl hbad
      simp [sendActionDispatch, hbr, hbad]
    · rintro mo rfl hgood
      simp [sendActionDispatch, hbr, hgood]
  · intro hbr
    simp [sendActionDispatch, hbr]

/-- Witness for C6: the malformed payload from the specification's test
property, and a plain string. -/
theorem sendActionDispatch_spec_witness :
    sendActionDispatch "\x7bcontent:\x7d" none = none
    ∧ sendActionDispatch "hello" none
      = some (JVal.objL [("content", JVal.str "hello")]) :=
  ⟨((sendActionDispatch_spec "\x7bcontent:\x7d" none).1 (by decide)).1 rfl,
   (sendActionDispatch_spec "hello" none).2 (by decide)⟩

/-! ## PresenceProjector: `updateUserPresence` (claim C7) -/

/-- Activity entry of a raw presence (`presence.activities[n]`); `atype`
models `activity.type`; `state` and `name` may be null. -/
structure DActivity where
  atype : String
  name : Option String
  state : Option String
deriving DecidableEq

/-- Raw remote presence object (`none` at use sites models a null
presence). -/
structure DPresenceData where
  status : String
  activities : List DActivity
deriving DecidableEq

/-- Normalized tuple returned by `updateUserPresence`. -/
structure PresenceTuple where
  status : String
  activityName : String
  activityType : String
deriving DecidableEq

/-- Derivation of the normalized presence tuple (identical in both source
versions): the status (or `""`), the first activity's `state` when its
type is `CUSTOM` and otherwise its `name` (or `""`), and the first
activity's type (or `""`). -/
def derivePresence (presence : Option DPresenceData) : PresenceTuple :=
  let act0 := presence.bind (fun p => p.activities.head?)
  { status := (presence.map (fun p => p.status)).getD ""
  , activityName :=
      (act0.bind (fun a => if a.atype = "CUSTOM" then a.state else a.name)).getD ""
  , activityType := (act0.map (fun a => a.atype)).getD "" }

/-- Leaf writes of `updateUserPresence` in the compiled main.js: with
presence observation enabled, the derived status, activity name and
activity type go to the `status`, `activityName` and `activityType` leaves
of `users.<id>`; with observation disabled the function returns before any
write. -/
def updateUserPresenceWrites (observeUserPresence : Bool) (userId : String)
    (presence : Option DPresenceData) : List (String × String) :=
  if !observeUserPresence then []
  else
    let p := derivePresence presence
    [("users." ++ userId ++ ".status", p.status),
     ("users." ++ userId ++ ".activityName", p.activityName),
     ("users." ++ userId ++ ".activityType", p.activityType)]

/-- Leaf writes of `updateUserPresence` in main.ts (src/main.ts lines
938-940), which passes `p.activityType` to the `activityName` state and
`p.activityName` to the `activityType` state. -/
def updateUserPresenceWritesTsVersion (observeUserPresence : Bool) (userId : String)
    (presence : Option DPresenceData) : List (String × String) :=
  if !observeUserPresence then []
  else
    let p := derivePresence presence
    [("users." ++ userId ++ ".status", p.status),
     ("users." ++ userId ++ ".activityName", p.activityType),
     ("users." ++ userId ++ ".activityType", p.activityName)]

/-- C7: at a presence with activity type `PLAYING` named `Chess`, the
compiled main.js writes the activity name to the `activityName` leaf and
the type to the `activityType` leaf as the claim states, while main.ts
writes them swapped — the two source versions do not agree. -/
theorem updateUserPresence_versions_diverge :
    updateUserPresenceWrites true "1"
        (some ⟨"online", [⟨"PLAYING", some "Chess", none⟩]⟩)
      = [("users.1.status", "online"), ("users.1.activityName", "Chess"),
         ("users.1.activityType", "PLAYING")]
    ∧ updateUserPresenceWritesTsVersion true "1"
        (some ⟨"online", [⟨"PLAYING", some "Chess", none⟩]⟩)
      = [("users.1.status", "online"), ("users.1.activityName", "PLAYING"),
         ("users.1.activityType", "Chess")] :=
  ⟨rfl, rfl⟩

/-! ## ReconciliationEngine: two-wave channel processing (claim C8) -/

/-- Channel snapshot used by the reconciliation pass. -/
structure GChannel where
  id : String
  name : String
  ctype : String
  parentId : Option String
  parentName : Option String
  isText : Bool
  isVoice : Bool
  members : List (String × String × String)
deriving DecidableEq

/-- JavaScript truthiness of `channel.parentId`. -/
def GChannel.hasParent (c : GChannel) : Bool :=
  match c.parentId with
  | some s => !s.isEmpty
  | none => false

/-- Object path prefix of a channel (`channelIdPrefix` in the source):
`servers.<guildId>.channels.<id>` in the parentless wave and
`servers.<guildId>.channels.<parentId>.channels.<id>` in the child wave. -/
def channelIdBase (parents : Bool) (guildId : String) (c : GChannel) : String :=
  if parents then
    "servers." ++ guildId ++ ".channels." ++ c.id
  else
    "servers." ++ guildId ++ ".channels." ++ c.parentId.getD "null"
      ++ ".channels." ++ c.id

/-- Processing order of the channel loop of `updateGuilds`: the outer loop
runs over `[true, false]` and the inner loop skips child channels in the
first round and parentless channels in the second. -/
def channelWaveOrder (guildId : String) (channels : List GChannel) :
    List (GChannel × String) :=
  [true, false].foldl (fun acc parents =>
    channels.foldl (fun acc2 c =>
      if (parents && c.hasParent) || (!parents && !c.hasParent) then acc2
      else acc2 ++ [(c, channelIdBase parents guildId c)]) acc) []

theorem foldl_guard_append {α β : Type} (g : α → Bool) (f : α → β)
    (l : List α) (acc : List β) :
    l.foldl (fun a2 c => if g c then a2 else a2 ++ [f c]) acc
      = acc ++ (l.filter (fun c => !g c)).map f := by
  induction l generalizing acc with
  | nil => simp
  | cons c rest ih =>
    rw [List.foldl_cons]
    cases h : g c with
    | true => rw [if_pos rfl, ih]; simp [List.filter_cons, h]
    | false => rw [if_neg (by simp [h]), ih]; simp [List.filter_cons, h]

theorem channelWaveOrder_eq (guildId : String) (channels : List GChannel) :
    channelWaveOrder guildId channels
      = (channels.filter (fun c => !c.hasParent)).map
          (fun c => (c, channelIdBase true guildId c))
        ++ (channels.filter (fun c => c.hasParent)).map
          (fun c => (c, channelIdBase false guildId c)) := by
  unfold channelWaveOrder
  simp only [List.foldl_cons, List.foldl_nil]
  rw [foldl_guard_append, foldl_guard_append]
  simp only [Bool.true_and, Bool.not_true, Bool.false_and, Bool.or_false,
    Bool.false_or, Bool.not_false, Bool.true_and, List.nil_append, Bool.not_not]

/-- C8: the channel loop processes each fetched channel exactly once (the
processed channels are a permutation of the fetched list), in two ordered
waves: first every parentless channel with path
`servers.<guildId>.channels.<id>`, then every child channel with path
`servers.<guildId>.channels.<parentId>.channels.<id>`, so all parentless
channels' objects are created before any child channel's objects. -/
theorem channelWaveOrder_two_waves (guildId : String) (channels : List GChannel) :
    ((channelWaveOrder guildId channels).map Prod.fst).Perm channels
    ∧ ∃ w1 w2, channelWaveOrder guildId channels = w1 ++ w2
        ∧ (∀ p ∈ w1, p.1.hasParent = false
            ∧ p.2 = "servers." ++ guildId ++ ".channels." ++ p.1.id)
        ∧ (∀ p ∈ w2, p.1.hasParent = true
            ∧ p.2 = "servers." ++ guildId ++ ".channels."
                ++ p.1.parentId.getD "null" ++ ".channels." ++ p.1.id) := by
  constructor
  · rw [channelWaveOrder_eq, List.map_append, List.map_map, List.map_map]
    have h1 : (Prod.fst ∘ fun c => (c, channelIdBase true guildId c)) = id := rfl
    have h2 : (Prod.fst ∘ fun c => (c, channelIdBase false guildId c)) = id := rfl
    rw [h1, h2, List.map_id, List.map_id]
    have hperm := List.filter_append_perm (fun c => !GChannel.hasParent c) channels
    have hco : (fun c => !(!GChannel.hasParent c)) = fun c => GChannel.hasParent c := by
      funext c
      exact Bool.not_not _
    rw [hco] at hperm
    exact hperm
  · refine ⟨_, _, channelWaveOrder_eq guildId channels, ?_, ?_⟩
    · intro p hp
      rcases List.mem_map.1 hp with ⟨c, hc, rfl⟩
      have hpar : c.hasParent = false := by
        have := (List.mem_filter.1 hc).2
        simpa using this
      exact ⟨hpar, by simp [channelIdBase]⟩
    · intro p hp
      rcases List.mem_map.1 hp with ⟨c, hc, rfl⟩
      have hpar : c.hasParent = true := (List.mem_filter.1 hc).2
      exact ⟨hpar, by simp [channelIdBase]⟩

/-- Witness for C8 at a two-channel guild (one child, one parentless). -/
theorem channelWaveOrder_two_waves_witness :
    ((channelWaveOrder "g"
        [⟨"c2", "child", "GUILD_TEXT", some "c1", some "parent", true, false, []⟩,
         ⟨"c1", "parent", "GUILD_CATEGORY", none, none, false, false, []⟩]).map
          Prod.fst).Perm
      [⟨"c2", "child", "GUILD_TEXT", some "c1", some "parent", true, false, []⟩,
       ⟨"c1", "parent", "GUILD_CATEGORY", none, none, false, false, []⟩] :=
  (channelWaveOrder_two_waves "g" _).1

/-! ## OutboundCommandRouter: value guards and acknowledgement (claim C10) -/

/-- Head of `onSendStateChange`: the dispatch fails before any target
resolution when the client is not ready, when the state value is not a
string, or when it is the empty string.  `rest` is the remainder of the
handler (target resolution, payload parsing and the remote call), which
receives the raw string value and yields the handler's boolean result
together with the remote calls it issued; the guards return `false` with
no remote call without ever invoking it. -/
def onSendStateChange {γ : Type} (clientReady : Bool) (val : JVal)
    (rest : String → Bool × List γ) : Bool × List γ :=
  if !clientReady then (false, [])
  else
    match val with
    | .str s => if s.length = 0 then (false, []) else rest s
    | _ => (false, [])

/-- Acknowledgement logic of `onStateChange` for own states: an unack
state change on one of the exact `bot.*` ids always sets ack after calling
`setBotPresence`; a change on a `.send` / `.sendFile` / `.sendReply` /
`.sendReaction` state sets ack exactly when `onSendStateChange` returned
`true`; a change on a voice state sets ack exactly when
`onVoiceStateChange` (abstracted as `voiceResult`) returned `true`.  The
result is the list of state ids re-written with the acknowledgement flag
set. -/
def onStateChangeAckWrites {γ : Type} (ns stateId : String)
    (state : Option (JVal × Bool)) (clientReady : Bool)
    (rest : String → Bool × List γ) (voiceResult : Bool) : List String :=
  match state with
  | none => []
  | some (val, ack) =>
    if ack then []
    else
      let setAck :=
        if strStartsWith stateId (ns ++ ".") then
          if stateId = ns ++ ".bot.status" then true
          else if stateId = ns ++ ".bot.activityType" then true
          else if stateId = ns ++ ".bot.activityName" then true
          else if strEndsWith stateId ".send" || strEndsWith stateId ".sendFile"
              || strEndsWith stateId ".sendReply"
              || strEndsWith stateId ".sendReaction" then
            (onSendStateChange clientReady val rest).1
          else if strEndsWith stateId ".voiceDisconnect"
              || strEndsWith stateId ".voiceServerMute"
              || strEndsWith stateId ".voiceServerDeaf" then voiceResult
          else false
        else false
      if setAck then [stateId] else []

/-- C10: for an unacknowledged write to a send-family state whose value is
not a string or is the empty string, `onSendStateChange` returns `false`
without issuing any remote call and the state is not re-written with the
acknowledgement flag; in general the acknowledgement re-write happens
exactly when the dispatch handler returns `true`. -/
theorem onSendStateChange_value_guards {γ : Type} (ns stateId : String)
    (val : JVal) (clientReady : Bool) (rest : String → Bool × List γ)
    (voiceResult : Bool)
    (hns : strStartsWith stateId (ns ++ ".") = true)
    (hsend : (strEndsWith stateId ".send" || strEndsWith stateId ".sendFile"
        || strEndsWith stateId ".sendReply"
        || strEndsWith stateId ".sendReaction") = true)
    (hb1 : stateId ≠ ns ++ ".bot.status")
    (hb2 : stateId ≠ ns ++ ".bot.activityType")
    (hb3 : stateId ≠ ns ++ ".bot.activityName") :
    (((∀ s, val ≠ JVal.str s) ∨ val = JVal.str "") →
      onSendStateChange clientReady val rest = (false, [])
      ∧ onStateChangeAckWrites ns stateId (some (val, false)) clientReady rest
          voiceResult = [])
    ∧ (onStateChangeAckWrites ns stateId (some (val, false)) clientReady rest
          voiceResult = [stateId]
        ↔ (onSendStateChange clientReady val rest).1 = true) := by
  have hack : onStateChangeAckWrites ns stateId (some (val, false)) clientReady rest
      voiceResult
      = (if (onSendStateChange clientReady val rest).1 then [stateId] else []) := by
    simp [onStateChangeAckWrites, hns, hsend, hb1, hb2, hb3]
  constructor
  · intro hval
    have hguard : onSendStateChange clientReady val rest = (false, []) := by
      unfold onSendStateChange
      cases clientReady with
      | false => rfl
      | true =>
        rcases hval with hns2 | rfl
        · cases val with
          | str s => exact absurd rfl (hns2 s)
          | null => rfl
          | bool b => rfl
          | num n => rfl
          | arr xs => rfl
          | obj fs => rfl
        · rfl
    refine ⟨hguard, ?_⟩
    rw [hack, hguard]
    rfl
  · rw [hack]
    cases h : (onSendStateChange clientReady val rest).1 <;> simp

/-- Witness for C10: a numeric value written to a channel `send` state. -/
theorem onSendStateChange_value_guards_witness :
    onSendStateChange true (JVal.num 5) (fun _ => (true, ([] : List Unit)))
      = (false, [])
    ∧ onStateChangeAckWrites "discord.0" "discord.0.servers.1.channels.2.send"
        (some (JVal.num 5, false)) true (fun _ => (true, ([] : List Unit))) false
      = [] :=
  (onSendStateChange_value_guards "discord.0" "discord.0.servers.1.channels.2.send"
    (JVal.num 5) true (fun _ => (true, [])) false (by decide) (by decide)
    (by decide) (by decide) (by decide)).1
    (Or.inl (fun s h => JVal.noConfusion h))

/-! ## ReconciliationEngine: mark-and-sweep phase (claim C1) -/

/-- Digit-string check, modelling the regex fragment `\d+`. -/
def isDigits (s : String) : Bool :=
  !s.toList.isEmpty && s.toList.all Char.isDigit

/-- Splits a character list at every dot (helper for matching the sweep
regexes; `\d+` and `channels` contain no dot, so segment-wise matching is
equivalent to the anchored regex). -/
def splitDotAux : List Char → List Char → List String
  | [], acc => [acc.reverse.asString]
  | c :: cs, acc =>
    if c = '.' then acc.reverse.asString :: splitDotAux cs []
    else splitDotAux cs (c :: acc)

/-- Dot-separated segments of a string. -/
def splitOnDots (s : String) : List String :=
  splitDotAux s.toList []

/-- Segment-wise check of the captured group
`(\d+)(\.channels\.(\d+)){0,2}` of the sweep regex for servers and
channels. -/
def serversIdPathSegsOk : List String → Bool
  | [a] => isDigits a
  | [a, b, c] => isDigits a && b == "channels" && isDigits c
  | [a, b, c, d, e] =>
    isDigits a && b == "channels" && isDigits c && d == "channels" && isDigits e
  | _ => false

/-- Match of the sweep regex
`^<name>.<instance>\.servers\.((\d+)(\.channels\.(\d+)){0,2})$` against a
stored object id; returns the captured id path.  `ns` is the adapter
namespace `<name>.<instance>`. -/
def matchServersChannels (ns id : String) : Option String :=
  let pre := ns ++ ".servers."
  if strStartsWith id pre then
    let idPath := (id.toList.drop pre.toList.length).asString
    if serversIdPathSegsOk (splitOnDots idPath) then some idPath else none
  else none

/-- Match of the sweep regex `^<name>.<instance>\.users\.(\d+)$` against a
stored object id; returns the captured user id. -/
def matchUsers (ns id : String) : Option String :=
  let pre := ns ++ ".users."
  if strStartsWith id pre then
    let userId := (id.toList.drop pre.toList.length).asString
    if isDigits userId then some userId else none
  else none

/-- Adapter caches touched by the sweep phase. -/
structure SweepCaches where
  messageReceiveStates : List String
  jsonStateCache : List (String × JVal)
  extendObjectCache : List (String × JVal)
deriving DecidableEq

/-- Caches after the sweep together with the ids handed to
`delObjectAsyncCached(id, { recursive: true })`, i.e. the recursive store
deletions performed. -/
structure SweepResult where
  caches : SweepCaches
  deletions : List String
deriving DecidableEq

/-- One iteration of the server sweep loop of `updateGuilds`: a row whose
id matches the servers/channels regex and is not in
`knownServersAndChannelsIds` has its `.message` entry removed from
`messageReceiveStates`, its `.json` entry removed from `jsonStateCache`,
and is deleted recursively through `delObjectAsyncCached` (which purges
the `extendObjectCache` subtree). -/
def sweepServersStep (ns : String) (known : List String) (acc : SweepResult)
    (id : String) : SweepResult :=
  match matchServersChannels ns id with
  | some idPath =>
    if id ∈ known then acc
    else
      { caches :=
          { messageReceiveStates :=
              setDelete acc.caches.messageReceiveStates
                (ns ++ ".servers." ++ idPath ++ ".message")
          , jsonStateCache :=
              alDelete acc.caches.jsonStateCache
                (ns ++ ".servers." ++ idPath ++ ".json")
          , extendObjectCache :=
              delObjectAsyncCachedCacheUpdate acc.caches.extendObjectCache
                ("servers." ++ idPath) true }
      , deletions := acc.deletions ++ ["servers." ++ idPath] }
  | none => acc

/-- One iteration of the user sweep loop of `updateGuilds`: a row whose id
matches the users regex and whose captured user id is not a key of
`allServersUsers` is purged and deleted analogously. -/
def sweepUsersStep (ns : String) (knownUserIds : List String) (acc : SweepResult)
    (id : String) : SweepResult :=
  match matchUsers ns id with
  | some userId =>
    if userId ∈ knownUserIds then acc
    else
      { caches :=
          { messageReceiveStates :=
              setDelete acc.caches.messageReceiveStates
                (ns ++ ".users." ++ userId ++ ".message")
          , jsonStateCache :=
              alDelete acc.caches.jsonStateCache
                (ns ++ ".users." ++ userId ++ ".json")
          , extendObjectCache :=
              delObjectAsyncCachedCacheUpdate acc.caches.extendObjectCache
                ("users." ++ userId) true }
      , deletions := acc.deletions ++ ["users." ++ userId] }
  | none => acc

/-- Sweep phase of `updateGuilds`: fold the server sweep over the rows of
the `servers.` range listing, then the user sweep over the rows of the
`users.` range listing. -/
def updateGuildsSweep (ns : String) (knownServersAndChannelsIds : List String)
    (knownUserIds : List String) (serverRows userRows : List String)
    (c : SweepCaches) : SweepResult :=
  userRows.foldl (sweepUsersStep ns knownUserIds)
    (serverRows.foldl (sweepServersStep ns knownServersAndChannelsIds)
      { caches := c, deletions := [] })

/-- Statement that the entity with (un-namespaced) object id `unsId` and
namespaced id `fullId` has been swept: it was deleted recursively from the
store, no definition-cache entry under it survives, and its snapshot-cache
and message-receive entries are gone. -/
def SweptOut (r : SweepResult) (unsId fullId : String) : Prop :=
  unsId ∈ r.deletions
  ∧ (∀ e ∈ r.caches.extendObjectCache, strStartsWith e.1 unsId = false)
  ∧ alGet r.caches.jsonStateCache (fullId ++ ".json") = none
  ∧ (fullId ++ ".message") ∉ r.caches.messageReceiveStates

theorem sweepServersStep_preserves (ns : String) (known : List String)
    (unsId fullId : String) (acc : SweepResult) (id : String)
    (h : SweptOut acc unsId fullId) :
    SweptOut (sweepServersStep ns known acc id) unsId fullId := by
  unfold sweepServersStep
  split
  · split
    · exact h
    · obtain ⟨h1, h2, h3, h4⟩ := h
      refine ⟨List.mem_append_left _ h1, ?_, ?_, ?_⟩
      · intro e he
        exact h2 e (List.mem_filter.1 he).1
      · exact alGet_alDelete_eq_none _ _ _ h3
      · intro hc
        exact h4 (List.mem_filter.1 hc).1
  · exact h

theorem sweepUsersStep_preserves (ns : String) (knownUserIds : List String)
    (unsId fullId : String) (acc : SweepResult) (id : String)
    (h : SweptOut acc unsId fullId) :
    SweptOut (sweepUsersStep ns knownUserIds acc id) unsId fullId := by
  unfold sweepUsersStep
  split
  · split
    · exact h
    · obtain ⟨h1, h2, h3, h4⟩ := h
      refine ⟨List.mem_append_left _ h1, ?_, ?_, ?_⟩
      · intro e he
        exact h2 e (List.mem_filter.1 he).1
      · exact alGet_alDelete_eq_none _ _ _ h3
      · intro hc
        exact h4 (List.mem_filter.1 hc).1
  · exact h

theorem sweepServersStep_establishes (ns : String) (known : List String)
    (acc : SweepResult) (id idPath : String)
    (hm : matchServersChannels ns id = some idPath) (hk : id ∉ known) :
    SweptOut (sweepServersStep ns known acc id)
      ("servers." ++ idPath) (ns ++ ".servers." ++ idPath) := by
  unfold sweepServersStep
  split
  case _ idPath2 heq =>
    rw [hm] at heq
    obtain rfl : idPath = idPath2 := by injection heq
    rw [if_neg hk]
    refine ⟨List.mem_append_right _ (List.mem_singleton.2 rfl), ?_, ?_, ?_⟩
    · intro e he
      have := (List.mem_filter.1 he).2
      simpa using this
    · exact alGet_alDelete_self _ _
    · intro hc
      have := (List.mem_filter.1 hc).2
      simp at this
  case _ heq =>
    rw [hm] at heq
    exact Option.noConfusion heq

theorem sweepUsersStep_establishes (ns : String) (knownUserIds : List String)
    (acc : SweepResult) (id userId : String)
    (hm : matchUsers ns id = some userId) (hk : userId ∉ knownUserIds) :
    SweptOut (sweepUsersStep ns knownUserIds acc id)
      ("users." ++ userId) (ns ++ ".users." ++ userId) := by
  unfold sweepUsersStep
  split
  case _ userId2 heq =>
    rw [hm] at heq
    obtain rfl : userId = userId2 := by injection heq
    rw [if_neg hk]
    refine ⟨List.mem_append_right _ (List.mem_singleton.2 rfl), ?_, ?_, ?_⟩
    · intro e he
      have := (List.mem_filter.1 he).2
      simpa using this
    · exact alGet_alDelete_self _ _
    · intro hc
      have := (List.mem_filter.1 hc).2
      simp at this
  case _ heq =>
    rw [hm] at heq
    exact Option.noConfusion heq

theorem foldl_preserves {α β : Type} (step : α → β → α) (P : α → Prop)
    (hpres : ∀ acc b, P acc → P (step acc b)) (l : List β) (acc : α)
    (h : P acc) : P (l.foldl step acc) := by
  induction l generalizing acc with
  | nil => exact h
  | cons b rest ih => exact ih _ (hpres acc b h)

theorem foldl_establishes {α β : Type} (step : α → β → α) (P : α → Prop)
    (hpres : ∀ acc b, P acc → P (step acc b)) (l : List β) (b0 : β)
    (hb : b0 ∈ l) (hest : ∀ acc, P (step acc b0)) (acc : α) :
    P (l.foldl step acc) := by
  induction l generalizing acc with
  | nil => cases hb
  | cons b rest ih =>
    rcases List.mem_cons.1 hb with rfl | hb2
    · exact foldl_preserves step P hpres rest _ (hest acc)
    · exact ih hb2 _

/-- C1: after the sweep phase, every stored object id matching the
servers/channels pattern that was not recorded in
`knownServersAndChannelsIds`, and every stored object id matching the
users pattern whose user id is not a key of `allServersUsers`, has been
deleted recursively from the store and purged from the definition cache
(`extendObjectCache`), the snapshot cache (`jsonStateCache`) and
`messageReceiveStates`. -/
theorem updateGuildsSweep_deletes_stale (ns : String)
    (known knownUserIds serverRows userRows : List String) (c : SweepCaches) :
    (∀ id idPath, id ∈ serverRows → matchServersChannels ns id = some idPath →
      id ∉ known →
      SweptOut (updateGuildsSweep ns known knownUserIds serverRows userRows c)
        ("servers." ++ idPath) (ns ++ ".servers." ++ idPath))
    ∧ (∀ id userId, id ∈ userRows → matchUsers ns id = some userId →
      userId ∉ knownUserIds →
      SweptOut (updateGuildsSweep ns known knownUserIds serverRows userRows c)
        ("users." ++ userId) (ns ++ ".users." ++ userId)) := by
  constructor
  · intro id idPath hrow hm hk
    unfold updateGuildsSweep
    refine foldl_preserves _ _ (fun acc b h => sweepUsersStep_preserves
      ns knownUserIds _ _ acc b h) userRows _ ?_
    exact foldl_establishes _ _ (fun acc b h => sweepServersStep_preserves
      ns known _ _ acc b h) serverRows id hrow
      (fun acc => sweepServersStep_establishes ns known acc id idPath hm hk) _
  · intro id userId hrow hm hk
    unfold updateGuildsSweep
    exact foldl_establishes _ _ (fun acc b h => sweepUsersStep_preserves
      ns knownUserIds _ _ acc b h) userRows id hrow
      (fun acc => sweepUsersStep_establishes ns knownUserIds acc id userId hm hk) _

/-- Witness for C1: a stale channel row and a stale user row with occupied
caches. -/
theorem updateGuildsSweep_deletes_stale_witness :
    SweptOut
      (updateGuildsSweep "discord.0" ["discord.0.servers.9"] []
        ["discord.0.servers.123.channels.45", "discord.0.servers.9"]
        ["discord.0.users.7"]
        ⟨["discord.0.servers.123.channels.45.message", "discord.0.users.7.message"],
         [("discord.0.servers.123.channels.45.json", JVal.null),
          ("discord.0.users.7.json", JVal.null)],
         [("servers.123.channels.45", JVal.null),
          ("servers.123.channels.45.send", JVal.null),
          ("users.7", JVal.null)]⟩)
      ("servers." ++ "123.channels.45") ("discord.0" ++ ".servers." ++ "123.channels.45")
    ∧ SweptOut
      (updateGuildsSweep "discord.0" ["discord.0.servers.9"] []
        ["discord.0.servers.123.channels.45", "discord.0.servers.9"]
        ["discord.0.users.7"]
        ⟨["discord.0.servers.123.channels.45.message", "discord.0.users.7.message"],
         [("discord.0.servers.123.channels.45.json", JVal.null),
          ("discord.0.users.7.json", JVal.null)],
         [("servers.123.channels.45", JVal.null),
          ("servers.123.channels.45.send", JVal.null),
          ("users.7", JVal.null)]⟩)
      ("users." ++ "7") ("discord.0" ++ ".users." ++ "7") :=
  ⟨(updateGuildsSweep_deletes_stale "discord.0" ["discord.0.servers.9"] []
      ["discord.0.servers.123.channels.45", "discord.0.servers.9"]
      ["discord.0.users.7"] _).1
      "discord.0.servers.123.channels.45" "123.channels.45"
      (by decide) (by decide) (by decide),
   (updateGuildsSweep_deletes_stale "discord.0" ["discord.0.servers.9"] []
      ["discord.0.servers.123.channels.45", "discord.0.servers.9"]
      ["discord.0.users.7"] _).2
      "discord.0.users.7" "7" (by decide) (by decide) (by decide)⟩

/-! ## ReconciliationEngine: upsert phase of `updateGuilds` (claim C2)

The write-producing part of one reconciliation pass is embedded as a list
of primitive actions generated from the fetched remote graph, interpreted
against the two suppression caches.  The sweep phase (claim C1) performs
no store writes for an unchanged remote graph and is not part of this
embedding; `knownServersAndChannelsIds` bookkeeping and the
`messageReceiveStates` additions produce no writes either. -/

/-- Remote user snapshot (`member.user`). -/
structure DUser where
  id : String
  tag : String
  avatarUrl : String
  bot : Bool
deriving DecidableEq

/-- Remote guild member snapshot with the fields read by `updateGuilds`;
the `voice*` fields model `member.voice.*` (nullable in the SDK, coerced
with `!!` / `|| ""` at use sites). -/
structure DMember where
  id : String
  user : DUser
  displayName : String
  roleNames : List String
  joinedTimestamp : Option Int
  voiceChannelName : Option String
  voiceChannelId : Option String
  voiceSelfDeaf : Option Bool
  voiceServerDeaf : Option Bool
  voiceSelfMute : Option Bool
  voiceServerMute : Option Bool
  presence : Option DPresenceData
deriving DecidableEq

/-- Remote guild snapshot. -/
structure DGuild where
  id : String
  name : String
  members : List DMember
  channels : List GChannel
deriving DecidableEq

/-- The fetched remote graph of one reconciliation pass. -/
structure DRemote where
  guilds : List DGuild
deriving DecidableEq

/-- Adapter configuration relevant to the upsert phase. -/
structure UGConfig where
  observeUserPresence : Bool
deriving DecidableEq

/-- Primitive write-producing actions of the upsert phase:
`extend` is a call to `extendObjectAsyncCached`; `set` is an unconditional
`setStateAsync` leaf write; `jsonGuard` is a JSON snapshot write guarded by
a deep-equality check against `jsonStateCache`; `presenceJson` is the JSON
update of `updateUserPresence` (performed only when a snapshot-cache entry
exists, mutating its status/activity fields in place). -/
inductive UAction where
  | extend (id : String) (objPart : JVal)
  | set (id : String) (v : JVal)
  | jsonGuard (cacheKey stateId : String) (v : JVal)
  | presenceJson (cacheKey stateId : String) (p : PresenceTuple)
deriving DecidableEq

/-- A write that reached the store. -/
inductive StoreWrite where
  | extendW (id : String) (objPart : JVal)
  | setW (id : String) (v : JVal)
deriving DecidableEq

/-- Discriminator for definition upserts. -/
def StoreWrite.isExtendW : StoreWrite → Bool
  | .extendW _ _ => true
  | _ => false

/-- The two suppression caches carried across reconciliation passes. -/
structure PassCaches where
  extendObjectCache : List (String × JVal)
  jsonStateCache : List (String × JVal)
deriving DecidableEq

/-- Interpretation of one action against the caches, yielding the new
caches and the store writes performed. -/
def interpAction (s : PassCaches) (a : UAction) : PassCaches × List StoreWrite :=
  match a with
  | .extend id objPart =>
    let r := extendObjectAsyncCached s.extendObjectCache id objPart true
    ({ s with extendObjectCache := r.cache },
     r.storeCalls.map (fun c => .extendW c.1 c.2))
  | .set id v => (s, [.setW id v])
  | .jsonGuard cacheKey stateId v =>
    if alGet s.jsonStateCache cacheKey = some v then (s, [])
    else ({ s with jsonStateCache := alSet s.jsonStateCache cacheKey v },
      [.setW stateId v])
  | .presenceJson cacheKey stateId p =>
    match alGet s.jsonStateCache cacheKey with
    | none => (s, [])
    | some j =>
      let j2 := ((j.setField "status" (.str p.status)).setField "activityName"
        (.str p.activityName)).setField "activityType" (.str p.activityType)
      ({ s with jsonStateCache := alSet s.jsonStateCache cacheKey j2 },
        [.setW stateId j2])

/-- Sequential interpretation of an action list. -/
def interpActions : List UAction → PassCaches → PassCaches × List StoreWrite
  | [], s => (s, [])
  | a :: rest, s =>
    let r1 := interpAction s a
    let r2 := interpActions rest r1.1
    (r2.1, r1.2 ++ r2.2)

/-- Definition of a state object as passed to `extendObjectAsyncCached`
(the translated name of `i18n.getStringOrTranslated` is modelled by its
English key). -/
def stateObjDef (name role stype : String) (readFlag writeFlag : Bool)
    (defVal : JVal) : JVal :=
  JVal.objL [("type", .str "state"),
    ("common", JVal.objL [("name", .str name), ("role", .str role),
      ("type", .str stype), ("read", .bool readFlag), ("write", .bool writeFlag),
      ("def", defVal)]),
    ("native", JVal.objL [])]

/-- Definition of a channel (folder) object. -/
def channelObjDef (commonFields nativeFields : List (String × JVal)) : JVal :=
  JVal.objL [("type", .str "channel"), ("common", JVal.objL commonFields),
    ("native", JVal.objL nativeFields)]

/-- JSON encoding of a nullable string (JS `undefined` as `null`). -/
def optStrJ : Option String → JVal
  | some s => .str s
  | none => .null

/-- JSON encoding of a nullable number. -/
def optIntJ : Option Int → JVal
  | some n => .num n
  | none => .null

/-- JavaScript `Array.prototype.join(", ")`. -/
def joinComma (l : List String) : String :=
  String.intercalate ", " l

/-- Actions produced for one guild member: the member container, eleven
leaf definitions, nine unconditional leaf writes and the guarded member
JSON snapshot. -/
def memberActions (ns guildId : String) (m : DMember) : List UAction :=
  let base := "servers." ++ guildId ++ ".members." ++ m.id
  let memberJson := JVal.objL [
    ("tag", .str m.user.tag), ("id", .str m.id),
    ("displayName", .str m.displayName),
    ("roles", JVal.arrL (m.roleNames.map JVal.str)),
    ("joined", optIntJ m.joinedTimestamp),
    ("voiceChannel", .str (m.voiceChannelName.getD "")),
    ("voiceChannelId", .str (m.voiceChannelId.getD "")),
    ("voiceSelfDeaf", .bool (m.voiceSelfDeaf.getD false)),
    ("voiceServerDeaf", .bool (m.voiceServerDeaf.getD false)),
    ("voiceSelfMute", .bool (m.voiceSelfMute.getD false)),
    ("voiceServerMute", .bool (m.voiceServerMute.getD false))]
  [ .extend base (channelObjDef
      [("name", .str (m.displayName ++ " (" ++ m.user.tag ++ ")"))] [])
  , .extend (base ++ ".tag") (stateObjDef "User tag" "text" "string" true false (.str ""))
  , .extend (base ++ ".displayName")
      (stateObjDef "Display name" "text" "string" true false (.str ""))
  , .extend (base ++ ".roles") (stateObjDef "Roles" "text" "string" true false (.str ""))
  , .extend (base ++ ".joinedAt")
      (stateObjDef "Joined at" "date" "number" true false (.num 0))
  , .extend (base ++ ".voiceChannel")
      (stateObjDef "Voice channel" "text" "string" true false (.str ""))
  , .extend (base ++ ".voiceDisconnect")
      (stateObjDef "Voice disconnect" "button" "boolean" false true (.bool false))
  , .extend (base ++ ".voiceSelfDeaf")
      (stateObjDef "Voice self deafen" "indicator" "boolean" true false (.bool false))
  , .extend (base ++ ".voiceServerDeaf")
      (stateObjDef "Voice server deafen" "switch" "boolean" true true (.bool false))
  , .extend (base ++ ".voiceSelfMute")
      (stateObjDef "Voice self mute" "indicator" "boolean" true false (.bool false))
  , .extend (base ++ ".voiceServerMute")
      (stateObjDef "Voice server mute" "switch" "boolean" true true (.bool false))
  , .extend (base ++ ".json") (stateObjDef "JSON data" "json" "string" true false (.str ""))
  , .set (base ++ ".tag") (.str m.user.tag)
  , .set (base ++ ".displayName") (.str m.displayName)
  , .set (base ++ ".roles") (.str (joinComma m.roleNames))
  , .set (base ++ ".joinedAt") (optIntJ m.joinedTimestamp)
  , .set (base ++ ".voiceChannel") (.str (m.voiceChannelName.getD ""))
  , .set (base ++ ".voiceSelfDeaf") (.bool (m.voiceSelfDeaf.getD false))
  , .set (base ++ ".voiceServerDeaf") (.bool (m.voiceServerDeaf.getD false))
  , .set (base ++ ".voiceSelfMute") (.bool (m.voiceSelfMute.getD false))
  , .set (base ++ ".voiceServerMute") (.bool (m.voiceServerMute.getD false))
  , .jsonGuard (ns ++ "." ++ base ++ ".json") (base ++ ".json") memberJson ]

/-- Actions produced for one channel at its resolved object path `base`:
the channel container (with the `Channels` sub-folder for categories), the
`json` / `memberCount` / `members` definitions, the message-mirroring and
send-command leaves for text channels, the guarded channel JSON snapshot
and the two unconditional leaf writes. -/
def channelActions (ns : String) (c : GChannel) (base : String) : List UAction :=
  let icon : Option String :=
    if c.isVoice then some "channel-voice.svg"
    else if c.isText then some "channel-text.svg"
    else none
  let channelJson := JVal.objL [
    ("id", .str c.id), ("name", .str c.name), ("type", .str c.ctype),
    ("memberCount", .num (c.members.length : Int)),
    ("members", JVal.arrL (c.members.map (fun t =>
      JVal.objL [("id", .str t.1), ("tag", .str t.2.1),
        ("displayName", .str t.2.2)])))]
  [ .extend base (channelObjDef
      [("name", .str (match c.parentName with
          | some pn => pn ++ " / " ++ c.name
          | none => c.name)),
       ("icon", optStrJ icon)]
      [("channelId", .str c.id)]) ]
  ++ (if c.ctype == "GUILD_CATEGORY" then
      [.extend (base ++ ".channels") (channelObjDef [("name", .str "Channels")] [])]
    else [])
  ++ [ .extend (base ++ ".json") (stateObjDef "JSON data" "json" "string" true false (.str ""))
     , .extend (base ++ ".memberCount")
         (stateObjDef "Member count" "value" "number" true false (.num 0))
     , .extend (base ++ ".members")
         (stateObjDef "Members" "text" "string" true false (.str "")) ]
  ++ (if c.isText then
      [ .extend (base ++ ".message")
          (stateObjDef "Last message" "text" "string" true false (.str ""))
      , .extend (base ++ ".messageId")
          (stateObjDef "Last message ID" "text" "string" true false (.str ""))
      , .extend (base ++ ".messageAuthor")
          (stateObjDef "Last message author" "text" "string" true false (.str ""))
      , .extend (base ++ ".messageTimestamp")
          (stateObjDef "Last message timestamp" "date" "number" true false (.num 0))
      , .extend (base ++ ".messageJson")
          (stateObjDef "Last message JSON data" "json" "string" true false (.str ""))
      , .extend (base ++ ".send")
          (stateObjDef "Send message" "text" "string" false true (.str ""))
      , .extend (base ++ ".sendFile")
          (stateObjDef "Send file" "text" "string" false true (.str ""))
      , .extend (base ++ ".sendReply")
          (stateObjDef "Send reply" "text" "string" false true (.str ""))
      , .extend (base ++ ".sendReaction")
          (stateObjDef "Send reaction" "text" "string" false true (.str "")) ]
    else [])
  ++ [ .jsonGuard (ns ++ "." ++ base ++ ".json") (base ++ ".json") channelJson
     , .set (base ++ ".memberCount") (.num (c.members.length : Int))
     , .set (base ++ ".members")
         (.str (joinComma (c.members.map (fun t => t.2.2)))) ]

/-- Actions produced for one guild: the server container, the `Members`
and `Channels` folders, every member, then every channel in the two-wave
order of claim C8. -/
def guildActions (ns : String) (g : DGuild) : List UAction :=
  [ .extend ("servers." ++ g.id) (channelObjDef [("name", .str g.name)] [])
  , .extend ("servers." ++ g.id ++ ".members")
      (channelObjDef [("name", .str "Members")] [])
  , .extend ("servers." ++ g.id ++ ".channels")
      (channelObjDef [("name", .str "Channels")] []) ]
  ++ (g.members.flatMap (memberActions ns g.id))
  ++ ((channelWaveOrder g.id g.channels).flatMap (fun p => channelActions ns p.1 p.2))

/-- The `allServersUsers` collection: every non-bot member's user keyed by
user id, in first-seen order with last-set value (`Collection.set`). -/
def buildAllServersUsers (botId : String) (guilds : List DGuild) :
    List (String × (DUser × Option DPresenceData)) :=
  guilds.foldl (fun acc g =>
    g.members.foldl (fun acc2 m =>
      if m.user.id ≠ botId then alSet acc2 m.user.id (m.user, m.presence)
      else acc2) acc) []

/-- Write actions of one `updateUserPresence(userId, presence, skip)` call:
nothing when presence observation is disabled; otherwise the conditional
user JSON update (skipped when `skipJsonStateUpdate`) and the three
unconditional presence leaf writes. -/
def updateUserPresenceActions (cfg : UGConfig) (ns userId : String)
    (presence : Option DPresenceData) (skipJsonStateUpdate : Bool) : List UAction :=
  if !cfg.observeUserPresence then []
  else
    let p := derivePresence presence
    (if skipJsonStateUpdate then []
     else [.presenceJson (ns ++ ".users." ++ userId ++ ".json")
        ("users." ++ userId ++ ".json") p])
    ++ [ .set ("users." ++ userId ++ ".status") (.str p.status)
       , .set ("users." ++ userId ++ ".activityName") (.str p.activityName)
       , .set ("users." ++ userId ++ ".activityType") (.str p.activityType) ]

/-- Actions produced for one entry of `allServersUsers`: the user container
and its fifteen leaf definitions, the first presence call (with JSON update
skipped, whose result feeds the user JSON), the guarded user JSON snapshot,
the three unconditional leaf writes and the second presence call. -/
def userActions (cfg : UGConfig) (ns : String)
    (entry : String × (DUser × Option DPresenceData)) : List UAction :=
  let uid := entry.1
  let user := entry.2.1
  let presence := entry.2.2
  let ps := if cfg.observeUserPresence then derivePresence presence
    else ⟨"", "", ""⟩
  let userJson := JVal.objL [
    ("id", .str user.id), ("tag", .str user.tag),
    ("activityName", .str ps.activityName),
    ("activityType", .str ps.activityType),
    ("avatarUrl", .str user.avatarUrl), ("bot", .bool user.bot),
    ("status", .str ps.status)]
  [ .extend ("users." ++ uid)
      (channelObjDef [("name", .str user.tag)] [("userId", .str user.id)])
  , .extend ("users." ++ uid ++ ".json")
      (stateObjDef "JSON data" "json" "string" true false (.str ""))
  , .extend ("users." ++ uid ++ ".tag")
      (stateObjDef "User tag" "text" "string" true false (.str ""))
  , .extend ("users." ++ uid ++ ".message")
      (stateObjDef "Last message" "text" "string" true false (.str ""))
  , .extend ("users." ++ uid ++ ".messageId")
      (stateObjDef "Last message ID" "text" "string" true false (.str ""))
  , .extend ("users." ++ uid ++ ".messageTimestamp")
      (stateObjDef "Last message timestamp" "date" "number" true false (.num 0))
  , .extend ("users." ++ uid ++ ".messageJson")
      (stateObjDef "Last message JSON data" "json" "string" true false (.str ""))
  , .extend ("users." ++ uid ++ ".send")
      (stateObjDef "Send message" "text" "string" false true (.str ""))
  , .extend ("users." ++ uid ++ ".sendFile")
      (stateObjDef "Send file" "text" "string" false true (.str ""))
  , .extend ("users." ++ uid ++ ".sendReply")
      (stateObjDef "Send reply" "text" "string" false true (.str ""))
  , .extend ("users." ++ uid ++ ".sendReaction")
      (stateObjDef "Send reaction" "text" "string" false true (.str ""))
  , .extend ("users." ++ uid ++ ".avatarUrl")
      (stateObjDef "Avatar" "media.link" "string" true false (.str ""))
  , .extend ("users." ++ uid ++ ".bot")
      (stateObjDef "Bot" "indicator" "boolean" true false (.bool false))
  , .extend ("users." ++ uid ++ ".status")
      (stateObjDef "Status" "text" "string" true false (.str ""))
  , .extend ("users." ++ uid ++ ".activityType")
      (stateObjDef "Activity type" "text" "string" true false (.str ""))
  , .extend ("users." ++ uid ++ ".activityName")
      (stateObjDef "Activity name" "text" "string" true false (.str "")) ]
  ++ updateUserPresenceActions cfg ns uid presence true
  ++ [ .jsonGuard (ns ++ ".users." ++ uid ++ ".json")
        ("users." ++ uid ++ ".json") userJson
     , .set ("users." ++ uid ++ ".tag") (.str user.tag)
     , .set ("users." ++ uid ++ ".avatarUrl") (.str user.avatarUrl)
     , .set ("users." ++ uid ++ ".bot") (.bool user.bot) ]
  ++ updateUserPresenceActions cfg ns uid presence false

/-- The write-producing actions of one `updateGuilds` pass over the given
remote graph: every guild (containers, members, two-wave channels), then
every collected user. -/
def updateGuildsActions (cfg : UGConfig) (ns botId : String)
    (remote : DRemote) : List UAction :=
  (remote.guilds.flatMap (guildActions ns))
    ++ ((buildAllServersUsers botId remote.guilds).flatMap (userActions cfg ns))

/-- One reconciliation pass: interpret the generated actions against the
caches, returning the caches afterwards and the store writes performed. -/
def updateGuildsPass (cfg : UGConfig) (ns botId : String) (remote : DRemote)
    (s : PassCaches) : PassCaches × List StoreWrite :=
  interpActions (updateGuildsActions cfg ns botId remote) s

theorem alGet_alSet_ne (m : List (String × α)) (k : String) (v : α) (k2 : String)
    (h : k ≠ k2) : alGet (alSet m k v) k2 = alGet m k2 := by
  induction m with
  | nil => simp [alGet, alSet, h]
  | cons e rest ih =>
    by_cases he : e.1 = k
    · simp [alSet, alGet, he, h, ih]
    · have hne : ¬(k2 = k) := fun hc => h hc.symm
      by_cases he2 : e.1 = k2
      · simp [alSet, alGet, he, he2, hne]
      · simp [alSet, alGet, he, he2, ih]

/-- The `(id, objPart)` arguments of the `extend` actions of a pass, in
order. -/
def extendPairs (acts : List UAction) : List (String × JVal) :=
  acts.filterMap (fun a => match a with
    | .extend id objPart => some (id, objPart)
    | _ => none)

theorem extendPairs_nil : extendPairs [] = [] := rfl

theorem extendPairs_cons_extend (id : String) (d : JVal) (rest : List UAction) :
    extendPairs (.extend id d :: rest) = (id, d) :: extendPairs rest := rfl

theorem extendPairs_cons_set (id : String) (v : JVal) (rest : List UAction) :
    extendPairs (.set id v :: rest) = extendPairs rest := rfl

theorem extendPairs_cons_jsonGuard (ck si : String) (v : JVal) (rest : List UAction) :
    extendPairs (.jsonGuard ck si v :: rest) = extendPairs rest := rfl

theorem extendPairs_cons_presenceJson (ck si : String) (p : PresenceTuple)
    (rest : List UAction) :
    extendPairs (.presenceJson ck si p :: rest) = extendPairs rest := rfl

theorem interpActions_cons (a : UAction) (rest : List UAction) (s : PassCaches) :
    interpActions (a :: rest) s
      = ((interpActions rest (interpAction s a).1).1,
         (interpAction s a).2 ++ (interpActions rest (interpAction s a).1).2) := rfl

theorem extendCached_cache_lookup_self (cache : List (String × JVal)) (id : String)
    (d : JVal) : alGet (extendObjectAsyncCached cache id d true).cache id = some d := by
  unfold extendObjectAsyncCached
  by_cases h : alGet cache id = some d
  · simp [h]
  · simp [h, alGet_alSet_self]

theorem extendCached_cache_lookup_ne (cache : List (String × JVal)) (id : String)
    (d : JVal) (id2 : String) (h : id ≠ id2) :
    alGet (extendObjectAsyncCached cache id d true).cache id2 = alGet cache id2 := by
  unfold extendObjectAsyncCached
  by_cases hc : alGet cache id = some d
  · simp [hc]
  · simp [hc, alGet_alSet_ne _ _ _ _ h]

theorem interpAction_set_ec (s : PassCaches) (id : String) (v : JVal) :
    (interpAction s (.set id v)).1.extendObjectCache = s.extendObjectCache := rfl

theorem interpAction_jsonGuard_ec (s : PassCaches) (ck si : String) (v : JVal) :
    (interpAction s (.jsonGuard ck si v)).1.extendObjectCache
      = s.extendObjectCache := by
  by_cases h : alGet s.jsonStateCache ck = some v
  · simp [interpAction, h]
  · simp [interpAction, h]

theorem interpAction_presenceJson_ec (s : PassCaches) (ck si : String)
    (p : PresenceTuple) :
    (interpAction s (.presenceJson ck si p)).1.extendObjectCache
      = s.extendObjectCache := by
  cases h : alGet s.jsonStateCache ck with
  | none => simp [interpAction, h]
  | some j => simp [interpAction, h]

theorem interpAction_extend_ec (s : PassCaches) (id : String) (d : JVal) :
    (interpAction s (.extend id d)).1.extendObjectCache
      = (extendObjectAsyncCached s.extendObjectCache id d true).cache := rfl

theorem interpActions_ec_lookup_preserved (acts : List UAction) (s : PassCaches)
    (id : String) (d : JVal)
    (hs : alGet s.extendObjectCache id = some d)
    (hall : ∀ q ∈ extendPairs acts, q.1 = id → q.2 = d) :
    alGet (interpActions acts s).1.extendObjectCache id = some d := by
  induction acts generalizing s with
  | nil => exact hs
  | cons a rest ih =>
    rw [interpActions_cons]
    cases a with
    | extend id2 d2 =>
      rw [extendPairs_cons_extend] at hall
      by_cases hid : id2 = id
      · have hd2 : d2 = d := hall (id2, d2) (List.mem_cons_self _ _) hid
        subst hid
        subst hd2
        refine ih _ ?_ (fun q hq hq1 => hall q (List.mem_cons_of_mem _ hq) hq1)
        rw [interpAction_extend_ec]
        exact extendCached_cache_lookup_self _ _ _
      · refine ih _ ?_ (fun q hq hq1 => hall q (List.mem_cons_of_mem _ hq) hq1)
        rw [interpAction_extend_ec, extendCached_cache_lookup_ne _ _ _ _ hid]
        exact hs
    | set id2 v =>
      rw [extendPairs_cons_set] at hall
      exact ih _ (by rw [interpAction_set_ec]; exact hs) hall
    | jsonGuard ck si v =>
      rw [extendPairs_cons_jsonGuard] at hall
      exact ih _ (by rw [interpAction_jsonGuard_ec]; exact hs) hall
    | presenceJson ck si p =>
      rw [extendPairs_cons_presenceJson] at hall
      exact ih _ (by rw [interpAction_presenceJson_ec]; exact hs) hall

theorem interpActions_ec_lookup (acts : List UAction) (s : PassCaches)
    (id : String) (d : JVal)
    (hmem : (id, d) ∈ extendPairs acts)
    (hall : ∀ q ∈ extendPairs acts, q.1 = id → q.2 = d) :
    alGet (interpActions acts s).1.extendObjectCache id = some d := by
  induction acts generalizing s with
  | nil => rw [extendPairs_nil] at hmem; cases hmem
  | cons a rest ih =>
    rw [interpActions_cons]
    cases a with
    | extend id2 d2 =>
      rw [extendPairs_cons_extend] at hmem hall
      rcases List.mem_cons.1 hmem with heq | hmem2
      · injection heq with h1 h2
        subst h1
        subst h2
        refine interpActions_ec_lookup_preserved rest _ id d ?_
          (fun q hq hq1 => hall q (List.mem_cons_of_mem _ hq) hq1)
        rw [interpAction_extend_ec]
        exact extendCached_cache_lookup_self _ _ _
      · exact ih _ hmem2 (fun q hq hq1 => hall q (List.mem_cons_of_mem _ hq) hq1)
    | set id2 v =>
      rw [extendPairs_cons_set] at hmem hall
      exact ih _ hmem hall
    | jsonGuard ck si v =>
      rw [extendPairs_cons_jsonGuard] at hmem hall
      exact ih _ hmem hall
    | presenceJson ck si p =>
      rw [extendPairs_cons_presenceJson] at hmem hall
      exact ih _ hmem hall

theorem interpActions_no_extendW_of_cached (acts : List UAction) (s : PassCaches)
    (h : ∀ q ∈ extendPairs acts, alGet s.extendObjectCache q.1 = some q.2) :
    ((interpActions acts s).2.all (fun w => !w.isExtendW)) = true := by
  induction acts generalizing s with
  | nil => rfl
  | cons a rest ih =>
    rw [interpActions_cons, List.all_append, Bool.and_eq_true]
    cases a with
    | extend id d =>
      rw [extendPairs_cons_extend] at h
      have hsup : alGet s.extendObjectCache id = some d :=
        h (id, d) (List.mem_cons_self _ _)
      have hact : interpAction s (.extend id d) = (s, []) := by
        unfold interpAction extendObjectAsyncCached
        simp [hsup]
      constructor
      · rw [hact]; rfl
      · rw [hact]
        exact ih s (fun q hq => h q (List.mem_cons_of_mem _ hq))
    | set id v =>
      rw [extendPairs_cons_set] at h
      refine ⟨rfl, ?_⟩
      refine ih _ ?_
      intro q hq
      rw [interpAction_set_ec]
      exact h q hq
    | jsonGuard ck si v =>
      rw [extendPairs_cons_jsonGuard] at h
      constructor
      · by_cases hck : alGet s.jsonStateCache ck = some v
        · simp [interpAction, hck]
        · simp [interpAction, hck, StoreWrite.isExtendW]
      · refine ih _ ?_
        intro q hq
        rw [interpAction_jsonGuard_ec]
        exact h q hq
    | presenceJson ck si p =>
      rw [extendPairs_cons_presenceJson] at h
      constructor
      · cases hck : alGet s.jsonStateCache ck with
        | none => simp [interpAction, hck]
        | some j => simp [interpAction, hck, StoreWrite.isExtendW]
      · refine ih _ ?_
        intro q hq
        rw [interpAction_presenceJson_ec]
        exact h q hq

/-- Statement that any two `extend` actions of a pass sharing an object id
carry the same definition.  This holds for real remote graphs because
guilds, members and channels are fetched as collections keyed by their
ids, so every generated object id is produced once per pass. -/
def ExtendFunctional (acts : List UAction) : Prop :=
  ∀ p ∈ extendPairs acts, ∀ q ∈ extendPairs acts, p.1 = q.1 → p.2 = q.2

/-- C2 counterexample input: one guild with one human member (the bot id
differs), presence observation disabled. -/
def exRemote : DRemote :=
  ⟨[⟨"10", "Guild",
     [⟨"20", ⟨"20", "alice#1", "https://cdn/a.png", false⟩, "Alice", ["admin"],
       some 5, none, none, none, none, none, none, none⟩],
     []⟩]⟩

/-- Configuration for the C2 counterexample. -/
def exCfg : UGConfig := ⟨false⟩

/-- C2 counterexample: running the pass a second time immediately after a
first pass over the unchanged remote graph still produces store writes
(the unconditional member leaf `setStateAsync` calls are re-issued), so
the second pass does not perform zero writes. -/
theorem updateGuilds_second_pass_counterexample :
    (updateGuildsPass exCfg "discord.0" "1" exRemote
      (updateGuildsPass exCfg "discord.0" "1" exRemote ⟨[], []⟩).1).2 ≠ [] := by
  decide

/-- C2 (amended): on a second pass over an unchanged remote graph, every
definition upsert is suppressed by `extendObjectCache` — no
`extendObjectAsync` call reaches the store (while unconditional leaf
`setStateAsync` writes are re-issued each pass, as the counterexample
shows). -/
theorem updateGuilds_second_pass_writes_no_defs (cfg : UGConfig)
    (ns botId : String) (remote : DRemote) (s0 : PassCaches)
    (hfun : ExtendFunctional (updateGuildsActions cfg ns botId remote)) :
    ((updateGuildsPass cfg ns botId remote
        (updateGuildsPass cfg ns botId remote s0).1).2.all
      (fun w => !w.isExtendW)) = true := by
  unfold updateGuildsPass
  apply interpActions_no_extendW_of_cached
  intro q hq
  have hq2 : (q.1, q.2) ∈ extendPairs (updateGuildsActions cfg ns botId remote) := by
    simpa using hq
  exact interpActions_ec_lookup _ _ q.1 q.2 hq2
    (fun p hp hp1 => hfun p hp q hq hp1)

/-- Witness for C2's amended theorem at the counterexample remote graph. -/
theorem updateGuilds_second_pass_writes_no_defs_witness :
    ((updateGuildsPass exCfg "discord.0" "1" exRemote
        (updateGuildsPass exCfg "discord.0" "1" exRemote ⟨[], []⟩).1).2.all
      (fun w => !w.isExtendW)) = true :=
  updateGuilds_second_pass_writes_no_defs exCfg "discord.0" "1" exRemote ⟨[], []⟩
    (by unfold ExtendFunctional; decide)

end DiscordAdapter
